import Mathlib

/-!
Shallow embedding of the location-tracker repository's reviewable core:
the Location Store (src/server/storage.ts: `MemStorage` and
`DatabaseStorage`), the Request Layer (src/server/routes.ts), the
create-request schema (src/unnamed/part_001: `insertLocationSchema`),
the Position Source wrapper (the geolocation module bundled in
src/client/src/App.tsx), and the localStorage cache
(src/client/src/lib/localStorage.ts).

Numbers that the code only carries through (coordinates, accuracy) are
embedded as `Int`; timestamps are abstract ticks (`Nat`) supplied by the
caller where the code calls `new Date()` / `defaultNow()`.
-/

namespace LocTracker

/-- A saved location record: the `locations` table row (src/unnamed/part_001)
and TS type `Location`.  `accuracy` is a nullable column, so `Option`;
`timestamp` is the creation instant. -/
structure Location where
  id : Int
  name : String
  latitude : Int
  longitude : Int
  accuracy : Option Int
  timestamp : Nat
  deriving Repr, DecidableEq

/-- A user row (`users` table).  Unused by any location route but part of the
store state. -/
structure User where
  id : Int
  username : String
  password : String
  deriving Repr, DecidableEq

/-- The create-request shape (TS `InsertLocation`, from `insertLocationSchema` =
`createInsertSchema(locations).omit({id, timestamp})`): `name`, `latitude`,
`longitude` required; `accuracy` optional and nullable.  The outer `Option`
is JS `undefined` (field absent), the inner one JS `null`. -/
structure InsertLocation where
  name : String
  latitude : Int
  longitude : Int
  accuracy : Option (Option Int)
  deriving Repr, DecidableEq

/-- JS `Map.get`. -/
def mapGet (m : List (Int × Location)) (k : Int) : Option Location :=
  m.lookup k

/-- JS `Map.set`: replace in place when the key exists, otherwise append
(JS Maps preserve insertion order). -/
def mapSet (m : List (Int × Location)) (k : Int) (v : Location) :
    List (Int × Location) :=
  if (m.lookup k).isSome then
    m.map (fun p => if p.1 = k then (k, v) else p)
  else
    m ++ [(k, v)]

/-- JS `Map.delete`: returns whether the key existed; removes it. -/
def mapDelete (m : List (Int × Location)) (k : Int) :
    Bool × List (Int × Location) :=
  ((m.lookup k).isSome, m.filter (fun p => p.1 != k))

/-- The Volatile variant's state (`MemStorage`): two JS Maps and two id
counters, exactly the fields set by the constructor. -/
structure MemStorage where
  users : List (Int × User)
  locations : List (Int × Location)
  currentUserId : Int
  currentLocationId : Int
  deriving Repr, DecidableEq

/-- `new MemStorage()`: empty maps, both counters 1. -/
def MemStorage.new : MemStorage :=
  { users := [], locations := [], currentUserId := 1, currentLocationId := 1 }

/-- `MemStorage.getAllLocations`: the Map's values sorted by the comparator
`(a, b) => b.timestamp - a.timestamp` (newest first); JS `Array.sort` is a
stable sort, embedded as `mergeSort` with `le a b ↔ b.timestamp ≤ a.timestamp`. -/
def MemStorage.getAllLocations (s : MemStorage) : List Location :=
  (s.locations.map (·.2)).mergeSort (fun a b => decide (b.timestamp ≤ a.timestamp))

/-- `MemStorage.getLocation`: `this.locations.get(id)`. -/
def MemStorage.getLocation (s : MemStorage) (id : Int) : Option Location :=
  mapGet s.locations id

/-- `MemStorage.createLocation`: takes the next counter value as id
(`this.currentLocationId++`), stamps `timestamp: new Date()` (the `now`
argument), maps absent accuracy to null (`insertLocation.accuracy ?? null`),
stores and returns the record. -/
def MemStorage.createLocation (s : MemStorage) (ins : InsertLocation) (now : Nat) :
    Location × MemStorage :=
  let id := s.currentLocationId
  let location : Location :=
    { id := id, name := ins.name, latitude := ins.latitude,
      longitude := ins.longitude, accuracy := ins.accuracy.getD none,
      timestamp := now }
  (location,
   { s with locations := mapSet s.locations id location,
            currentLocationId := id + 1 })

/-- `MemStorage.deleteLocation`: `this.locations.delete(id)`. -/
def MemStorage.deleteLocation (s : MemStorage) (id : Int) : Bool × MemStorage :=
  let r := mapDelete s.locations id
  (r.1, { s with locations := r.2 })

/-- `MemStorage.clearAllLocations`: `this.locations.clear(); return true`. -/
def MemStorage.clearAllLocations (s : MemStorage) : Bool × MemStorage :=
  (true, { s with locations := [] })

/-- The Durable variant's state: the `locations` table rows in insertion order
plus the `serial` primary-key counter.  The drizzle calls of
`DatabaseStorage` are embedded with their SQL semantics: `serial` assigns
successive ids, `defaultNow()` stamps the insertion instant (the `now`
argument), `where(eq(locations.id, id))` filters rows, and
`orderBy(locations.timestamp)` sorts ascending. -/
structure DatabaseStorage where
  rows : List Location
  serialId : Int
  deriving Repr, DecidableEq

/-- A fresh empty table; `serial` starts at 1. -/
def DatabaseStorage.new : DatabaseStorage :=
  { rows := [], serialId := 1 }

/-- `DatabaseStorage.getAllLocations`:
`db.select().from(locations).orderBy(locations.timestamp)` — ascending. -/
def DatabaseStorage.getAllLocations (s : DatabaseStorage) : List Location :=
  s.rows.mergeSort (fun a b => decide (a.timestamp ≤ b.timestamp))

/-- `DatabaseStorage.getLocation`: `select ... where(eq(locations.id, id))`,
first row or undefined. -/
def DatabaseStorage.getLocation (s : DatabaseStorage) (id : Int) : Option Location :=
  s.rows.find? (fun r => r.id == id)

/-- `DatabaseStorage.createLocation`: insert with `accuracy ?? null`, the
database assigning the serial id and default timestamp, `.returning()` the
stored row. -/
def DatabaseStorage.createLocation (s : DatabaseStorage) (ins : InsertLocation)
    (now : Nat) : Location × DatabaseStorage :=
  let location : Location :=
    { id := s.serialId, name := ins.name, latitude := ins.latitude,
      longitude := ins.longitude, accuracy := ins.accuracy.getD none,
      timestamp := now }
  (location, { rows := s.rows ++ [location], serialId := s.serialId + 1 })

/-- `DatabaseStorage.deleteLocation`: delete where id matches;
`result.rowCount ? result.rowCount > 0 : false`. -/
def DatabaseStorage.deleteLocation (s : DatabaseStorage) (id : Int) :
    Bool × DatabaseStorage :=
  let rowCount := (s.rows.filter (fun r => r.id == id)).length
  (decide (rowCount > 0), { s with rows := s.rows.filter (fun r => r.id != id) })

/-- `DatabaseStorage.clearAllLocations`: `delete from locations; return true`. -/
def DatabaseStorage.clearAllLocations (s : DatabaseStorage) : Bool × DatabaseStorage :=
  (true, { s with rows := [] })

/-- Two sample records sharing their field set, created at ticks 10 and 20. -/
def locHome : Location :=
  { id := 1, name := "Home", latitude := 12, longitude := 77,
    accuracy := none, timestamp := 10 }

def locWork : Location :=
  { id := 2, name := "Work", latitude := 13, longitude := 78,
    accuracy := some 15, timestamp := 20 }

/-- A Volatile store holding `locHome` and `locWork`. -/
def c1MemState : MemStorage :=
  { users := [], locations := [(1, locHome), (2, locWork)],
    currentUserId := 1, currentLocationId := 3 }

/-- A Durable store holding the same two records. -/
def c1DbState : DatabaseStorage :=
  { rows := [locHome, locWork], serialId := 3 }

/-- Evaluation of `mergeSort` on a two-element list (the recursion is
well-founded, so concrete runs are obtained by rewriting). -/
theorem mergeSort_pair {α : Type} (a b : α) (le : α → α → Bool) :
    [a, b].mergeSort le = if le a b then [a, b] else [b, a] := by
  rw [List.mergeSort]
  simp [List.splitInTwo, List.splitAt, List.splitAt.go, List.merge]

theorem mem_getAll_sorted_desc (s : MemStorage) :
    (s.getAllLocations).Pairwise (fun a b => b.timestamp ≤ a.timestamp) := by
  have h := @List.sorted_mergeSort Location
    (fun a b => decide (b.timestamp ≤ a.timestamp))
    (fun a b c hab hbc => by
      simp only [decide_eq_true_eq] at *
      exact Nat.le_trans hbc hab)
    (fun a b => by simpa using Nat.le_total b.timestamp a.timestamp)
    (s.locations.map (·.2))
  exact h.imp (fun hab => of_decide_eq_true hab)

theorem db_getAll_sorted_asc (s : DatabaseStorage) :
    (s.getAllLocations).Pairwise (fun a b => a.timestamp ≤ b.timestamp) := by
  have h := @List.sorted_mergeSort Location
    (fun a b => decide (a.timestamp ≤ b.timestamp))
    (fun a b c hab hbc => by
      simp only [decide_eq_true_eq] at *
      exact Nat.le_trans hab hbc)
    (fun a b => by simpa using Nat.le_total a.timestamp b.timestamp)
    s.rows
  exact h.imp (fun hab => of_decide_eq_true hab)

/-- C1: for every store state, the Volatile variant's `getAllLocations`
returns the stored records (a permutation of the map's values) sorted
descending by timestamp (newest-created-first), the Durable variant's
`getAllLocations` returns the stored rows sorted ascending by timestamp,
and on a pair of stores holding the identical record collection the two
variants return different sequences — they are not behaviorally
equivalent on `listAll`. -/
theorem c1_listAll_ordering_divergence :
    (∀ s : MemStorage,
      (s.getAllLocations).Perm (s.locations.map (·.2)) ∧
      (s.getAllLocations).Pairwise (fun a b => b.timestamp ≤ a.timestamp)) ∧
    (∀ s : DatabaseStorage,
      (s.getAllLocations).Perm s.rows ∧
      (s.getAllLocations).Pairwise (fun a b => a.timestamp ≤ b.timestamp)) ∧
    c1MemState.locations.map (·.2) = c1DbState.rows ∧
    c1MemState.getAllLocations ≠ c1DbState.getAllLocations := by
  have hm : c1MemState.getAllLocations = [locWork, locHome] := by
    simp [c1MemState, MemStorage.getAllLocations, mergeSort_pair, locHome, locWork]
  have hd : c1DbState.getAllLocations = [locHome, locWork] := by
    simp [c1DbState, DatabaseStorage.getAllLocations, mergeSort_pair, locHome, locWork]
  refine ⟨fun s => ⟨List.mergeSort_perm _ _, mem_getAll_sorted_desc s⟩,
          fun s => ⟨List.mergeSort_perm _ _, db_getAll_sorted_asc s⟩, by decide, ?_⟩
  rw [hm, hd]
  decide

theorem lookup_none_iff (m : List (Int × Location)) (k : Int) :
    m.lookup k = none ↔ ∀ p ∈ m, p.1 ≠ k := by
  induction m with
  | nil => simp
  | cons p t ih =>
    rcases p with ⟨a, v⟩
    by_cases h : k = a
    · subst h
      simp [List.lookup_cons]
    · simp only [List.lookup_cons, beq_eq_false_iff_ne, ne_eq, List.mem_cons]
      have : (k == a) = false := by simpa using h
      rw [this]
      simp only [ih]
      constructor
      · rintro hall q (rfl | hq)
        · simpa using fun he => h he.symm
        · exact hall q hq
      · intro hall
        exact fun q hq => hall q (Or.inr hq)

theorem lookup_filter_ne (m : List (Int × Location)) (k : Int) :
    (m.filter (fun p => p.1 != k)).lookup k = none := by
  rw [lookup_none_iff]
  intro p hp
  have := List.of_mem_filter hp
  simpa using this

theorem filter_ne_of_lookup_none (m : List (Int × Location)) (k : Int)
    (h : m.lookup k = none) : m.filter (fun p => p.1 != k) = m := by
  rw [List.filter_eq_self]
  intro p hp
  have := (lookup_none_iff m k).1 h p hp
  simpa using this

theorem lookup_append_single (m : List (Int × Location)) (k : Int) (v : Location)
    (h : m.lookup k = none) : (m ++ [(k, v)]).lookup k = some v := by
  induction m with
  | nil => simp [List.lookup_cons]
  | cons p t ih =>
    rcases p with ⟨a, w⟩
    have hka : ¬ k = a := by
      intro he
      subst he
      simp [List.lookup_cons] at h
    have hb : (k == a) = false := by simpa using hka
    simp only [List.lookup_cons, hb, List.cons_append] at h ⊢
    exact ih h

theorem lookup_map_replace (m : List (Int × Location)) (k : Int) (v : Location)
    (h : (m.lookup k).isSome) :
    ((m.map (fun p => if p.1 = k then (k, v) else p)).lookup k) = some v := by
  induction m with
  | nil => simp at h
  | cons p t ih =>
    rcases p with ⟨a, w⟩
    by_cases hka : a = k
    · subst hka
      simp [List.lookup_cons]
    · have hb : (k == a) = false := by
        simpa using fun he => hka he.symm
      simp only [List.lookup_cons, hb, List.map_cons, if_neg hka] at h ⊢
      exact ih h

/-- `mapSet` then `mapGet` at the written key returns the written value. -/
theorem mapGet_mapSet_self (m : List (Int × Location)) (k : Int) (v : Location) :
    mapGet (mapSet m k v) k = some v := by
  unfold mapGet mapSet
  by_cases h : (m.lookup k).isSome
  · rw [if_pos h]
    exact lookup_map_replace m k v h
  · rw [if_neg h]
    exact lookup_append_single m k v (Option.not_isSome_iff_eq_none.mp h)

theorem mem_delete_nonexistent (s : MemStorage) (id : Int)
    (hs : s.getLocation id = none) : s.deleteLocation id = (false, s) := by
  unfold MemStorage.deleteLocation mapDelete
  unfold MemStorage.getLocation mapGet at hs
  rw [hs, filter_ne_of_lookup_none s.locations id hs]
  rfl

theorem db_delete_nonexistent (d : DatabaseStorage) (id : Int)
    (hd : d.getLocation id = none) : d.deleteLocation id = (false, d) := by
  unfold DatabaseStorage.deleteLocation
  unfold DatabaseStorage.getLocation at hd
  rw [List.find?_eq_none] at hd
  have h1 : d.rows.filter (fun r => r.id == id) = [] := by
    rw [List.filter_eq_nil_iff]
    exact hd
  have h2 : d.rows.filter (fun r => r.id != id) = d.rows := by
    rw [List.filter_eq_self]
    intro r hr
    simpa using fun he => hd r hr (by simpa using he)
  rw [h1, h2]
  rfl

theorem mem_get_after_delete (s : MemStorage) (id : Int) :
    ((s.deleteLocation id).2).getLocation id = none := by
  unfold MemStorage.deleteLocation mapDelete MemStorage.getLocation mapGet
  exact lookup_filter_ne s.locations id

theorem db_get_after_delete (d : DatabaseStorage) (id : Int) :
    ((d.deleteLocation id).2).getLocation id = none := by
  unfold DatabaseStorage.deleteLocation DatabaseStorage.getLocation
  rw [List.find?_eq_none]
  intro r hr
  have := List.of_mem_filter hr
  simpa using this

theorem db_delete_true_of_exists (d : DatabaseStorage) (id : Int)
    (h : (d.getLocation id).isSome) : (d.deleteLocation id).1 = true := by
  unfold DatabaseStorage.getLocation at h
  rw [Option.isSome_iff_exists] at h
  obtain ⟨r, hr⟩ := h
  have hmem : r ∈ d.rows := List.mem_of_find?_eq_some hr
  have hpr : (r.id == id) = true := by simpa using List.find?_some hr
  have hmemf : r ∈ d.rows.filter (fun r => r.id == id) :=
    List.mem_filter.mpr ⟨hmem, hpr⟩
  have hlen : 0 < (d.rows.filter (fun r => r.id == id)).length :=
    List.length_pos.mpr (List.ne_nil_of_mem hmemf)
  unfold DatabaseStorage.deleteLocation
  simpa using hlen

/-- C3: on both variants, `deleteOne` of an id for which no record exists
returns `false` rather than an error, and the resulting store state —
in particular the stored collection — is exactly the state before the call. -/
theorem c3_delete_nonexistent_false_unchanged (s : MemStorage) (d : DatabaseStorage)
    (id : Int) (hs : s.getLocation id = none) (hd : d.getLocation id = none) :
    s.deleteLocation id = (false, s) ∧ d.deleteLocation id = (false, d) :=
  ⟨mem_delete_nonexistent s id hs, db_delete_nonexistent d id hd⟩

/-- C3 witness: a store holding one record with id 1; deleting id 2 returns
`false` and leaves both variants unchanged. -/
theorem c3_witness :
    c1MemState.getLocation 5 = none ∧ c1DbState.getLocation 5 = none ∧
    c1MemState.deleteLocation 5 = (false, c1MemState) ∧
    c1DbState.deleteLocation 5 = (false, c1DbState) := by
  refine ⟨by decide, by decide, ?_, ?_⟩
  · exact (c3_delete_nonexistent_false_unchanged c1MemState c1DbState 5
      (by decide) (by decide)).1
  · exact (c3_delete_nonexistent_false_unchanged c1MemState c1DbState 5
      (by decide) (by decide)).2

/-- C6: on both variants, `clearAll` returns `true` (it always succeeds),
removes every record, and `listAll` on the resulting state is empty —
regardless of the prior store state. -/
theorem c6_clearAll_then_listAll_empty (s : MemStorage) (d : DatabaseStorage) :
    (s.clearAllLocations).1 = true ∧
    ((s.clearAllLocations).2).getAllLocations = [] ∧
    ((s.clearAllLocations).2).locations = [] ∧
    (d.clearAllLocations).1 = true ∧
    ((d.clearAllLocations).2).getAllLocations = [] ∧
    ((d.clearAllLocations).2).rows = [] := by
  refine ⟨rfl, ?_, rfl, rfl, ?_, rfl⟩
  · simp [MemStorage.clearAllLocations, MemStorage.getAllLocations]
  · simp [DatabaseStorage.clearAllLocations, DatabaseStorage.getAllLocations]

/-- C7: on both variants, for an id whose record exists, `deleteOne(id)`
followed immediately by `getOne(id)` yields not-found (`none`). -/
theorem c7_delete_then_get_none (s : MemStorage) (d : DatabaseStorage) (id : Int)
    (hs : (s.getLocation id).isSome) (hd : (d.getLocation id).isSome) :
    ((s.deleteLocation id).2).getLocation id = none ∧
    ((d.deleteLocation id).2).getLocation id = none :=
  ⟨mem_get_after_delete s id, db_get_after_delete d id⟩

/-- C7 witness: deleting id 2, which exists in both sample stores, then
reading it back yields `none` in both variants. -/
theorem c7_witness :
    (c1MemState.getLocation 2).isSome ∧ (c1DbState.getLocation 2).isSome ∧
    ((c1MemState.deleteLocation 2).2).getLocation 2 = none ∧
    ((c1DbState.deleteLocation 2).2).getLocation 2 = none := by
  refine ⟨by decide, by decide, ?_, ?_⟩
  · exact (c7_delete_then_get_none c1MemState c1DbState 2 (by decide) (by decide)).1
  · exact (c7_delete_then_get_none c1MemState c1DbState 2 (by decide) (by decide)).2

/-- The Volatile store's location operations, for reasoning about arbitrary
call sequences against one store instance. -/
inductive StoreOp
  | create (ins : InsertLocation) (now : Nat)
  | deleteOne (id : Int)
  | clearAll
  | getAll
  | getOne (id : Int)

/-- Apply one operation; the second component is the id assigned when the
operation was a create. -/
def MemStorage.applyOp (s : MemStorage) : StoreOp → MemStorage × Option Int
  | .create ins now => ((s.createLocation ins now).2, some (s.createLocation ins now).1.id)
  | .deleteOne id => ((s.deleteLocation id).2, none)
  | .clearAll => ((s.clearAllLocations).2, none)
  | .getAll => (s, none)
  | .getOne _ => (s, none)

/-- Run a sequence of operations, collecting the assigned ids in order. -/
def MemStorage.runOps (s : MemStorage) : List StoreOp → MemStorage × List Int
  | [] => (s, [])
  | op :: ops =>
    ((((s.applyOp op).1).runOps ops).1,
     ((s.applyOp op).2).toList ++ (((s.applyOp op).1).runOps ops).2)

/-- Number of create operations in a sequence. -/
def countCreates : List StoreOp → Nat
  | [] => 0
  | .create _ _ :: ops => countCreates ops + 1
  | .deleteOne _ :: ops => countCreates ops
  | .clearAll :: ops => countCreates ops
  | .getAll :: ops => countCreates ops
  | .getOne _ :: ops => countCreates ops

/-- The consecutive integers `a, a+1, …, a+n-1`. -/
def intRange (a : Int) : Nat → List Int
  | 0 => []
  | n + 1 => a :: intRange (a + 1) n

theorem le_of_mem_intRange {x : Int} :
    ∀ {a : Int} {n : Nat}, x ∈ intRange a n → a ≤ x := by
  intro a n
  induction n generalizing a with
  | zero => intro h; simp [intRange] at h
  | succ n ih =>
    intro h
    rcases List.mem_cons.mp h with rfl | h
    · exact le_refl x
    · exact le_trans (by omega) (ih h)

theorem intRange_nodup : ∀ (a : Int) (n : Nat), (intRange a n).Nodup := by
  intro a n
  induction n generalizing a with
  | zero => simp [intRange]
  | succ n ih =>
    refine List.nodup_cons.mpr ⟨fun h => ?_, ih (a + 1)⟩
    have := le_of_mem_intRange h
    omega

theorem runOps_assigned_ids (ops : List StoreOp) : ∀ s : MemStorage,
    (s.runOps ops).2 = intRange s.currentLocationId (countCreates ops) ∧
    ((s.runOps ops).1).currentLocationId = s.currentLocationId + countCreates ops := by
  induction ops with
  | nil => intro s; exact ⟨rfl, by simp [MemStorage.runOps, countCreates]⟩
  | cons op ops ih =>
    intro s
    cases op with
    | create ins now =>
      have h := ih ((s.createLocation ins now).2)
      have hc : ((s.createLocation ins now).2).currentLocationId
          = s.currentLocationId + 1 := rfl
      rw [hc] at h
      refine ⟨?_, ?_⟩
      · have hr : (s.runOps (StoreOp.create ins now :: ops)).2
            = (some s.currentLocationId).toList
              ++ (((s.createLocation ins now).2).runOps ops).2 := rfl
        rw [hr, h.1]
        rfl
      · have hr : (s.runOps (StoreOp.create ins now :: ops)).1.currentLocationId
            = (((s.createLocation ins now).2).runOps ops).1.currentLocationId := rfl
        rw [hr, h.2]
        simp only [countCreates]
        push_cast
        omega
    | deleteOne id =>
      have h := ih ((s.deleteLocation id).2)
      have hc : ((s.deleteLocation id).2).currentLocationId
          = s.currentLocationId := rfl
      rw [hc] at h
      exact ⟨by simpa [MemStorage.runOps, MemStorage.applyOp, countCreates] using h.1,
             by simpa [MemStorage.runOps, MemStorage.applyOp, countCreates] using h.2⟩
    | clearAll =>
      have h := ih ((s.clearAllLocations).2)
      have hc : ((s.clearAllLocations).2).currentLocationId
          = s.currentLocationId := rfl
      rw [hc] at h
      exact ⟨by simpa [MemStorage.runOps, MemStorage.applyOp, countCreates] using h.1,
             by simpa [MemStorage.runOps, MemStorage.applyOp, countCreates] using h.2⟩
    | getAll =>
      have h := ih s
      exact ⟨by simpa [MemStorage.runOps, MemStorage.applyOp, countCreates] using h.1,
             by simpa [MemStorage.runOps, MemStorage.applyOp, countCreates] using h.2⟩
    | getOne id =>
      have h := ih s
      exact ⟨by simpa [MemStorage.runOps, MemStorage.applyOp, countCreates] using h.1,
             by simpa [MemStorage.runOps, MemStorage.applyOp, countCreates] using h.2⟩

/-- C4: in the Volatile variant, the first create on a fresh store assigns
id 1; over any sequence of operations on one store instance, the assigned
ids are exactly the consecutive integers starting at the current counter
(so 1, 2, 3, … from a fresh store: +1 per successful create), and they are
pairwise distinct (never reused) even when the sequence deletes records or
clears the store, because each create reads the counter and neither
`deleteOne` nor `clearAll` touches it. -/
theorem c4_ids_monotonic_never_reused :
    (∀ (ins : InsertLocation) (now : Nat),
      ((MemStorage.new).createLocation ins now).1.id = 1) ∧
    (∀ ops : List StoreOp,
      ((MemStorage.new).runOps ops).2 = intRange 1 (countCreates ops) ∧
      (((MemStorage.new).runOps ops).2).Nodup) ∧
    (∀ (s : MemStorage) (ins : InsertLocation) (now : Nat),
      (s.createLocation ins now).1.id = s.currentLocationId ∧
      ((s.createLocation ins now).2).currentLocationId = s.currentLocationId + 1) ∧
    (∀ (s : MemStorage) (id : Int),
      ((s.deleteLocation id).2).currentLocationId = s.currentLocationId) ∧
    (∀ s : MemStorage,
      ((s.clearAllLocations).2).currentLocationId = s.currentLocationId) := by
  refine ⟨fun ins now => rfl, fun ops => ⟨?_, ?_⟩,
          fun s ins now => ⟨rfl, rfl⟩, fun s id => rfl, fun s => rfl⟩
  · exact (runOps_assigned_ids ops MemStorage.new).1
  · rw [(runOps_assigned_ids ops MemStorage.new).1]
    exact intRange_nodup 1 (countCreates ops)

theorem find?_append_eq_of_none {p : Location → Bool} {l₁ l₂ : List Location}
    (h : l₁.find? p = none) : (l₁ ++ l₂).find? p = l₂.find? p := by
  induction l₁ with
  | nil => simp
  | cons a t ih =>
    cases hpa : p a with
    | true =>
      rw [List.find?_cons_of_pos _ hpa] at h
      simp at h
    | false =>
      rw [List.find?_cons_of_neg _ (by simp [hpa])] at h
      rw [List.cons_append, List.find?_cons_of_neg _ (by simp [hpa])]
      exact ih h

/-- C5: in both variants, a create request whose `accuracy` field is absent
yields a record stored and returned with the explicit no-value marker
(`none`), retrievable as such via `getOne`; a create request with
`accuracy = 0` yields a record whose accuracy is exactly `0`; and the two
stored values are distinguishable (`none ≠ some 0`).  (For the Durable
variant the table must not already contain a row at the next serial id,
which the primary-key discipline guarantees.) -/
theorem c5_accuracy_absent_distinct_from_zero
    (s : MemStorage) (d : DatabaseStorage) (insA insZ : InsertLocation) (now : Nat)
    (hA : insA.accuracy = none) (hZ : insZ.accuracy = some (some 0))
    (hfresh : ∀ r ∈ d.rows, r.id ≠ d.serialId) :
    (s.createLocation insA now).1.accuracy = none ∧
    ((s.createLocation insA now).2).getLocation (s.createLocation insA now).1.id
      = some (s.createLocation insA now).1 ∧
    (s.createLocation insZ now).1.accuracy = some 0 ∧
    (d.createLocation insA now).1.accuracy = none ∧
    ((d.createLocation insA now).2).getLocation (d.createLocation insA now).1.id
      = some (d.createLocation insA now).1 ∧
    (d.createLocation insZ now).1.accuracy = some 0 ∧
    (none : Option Int) ≠ some 0 := by
  refine ⟨by simp [MemStorage.createLocation, hA], ?_, by simp [MemStorage.createLocation, hZ],
          by simp [DatabaseStorage.createLocation, hA], ?_,
          by simp [DatabaseStorage.createLocation, hZ], by decide⟩
  · exact mapGet_mapSet_self s.locations s.currentLocationId _
  · show ((d.rows ++ [(d.createLocation insA now).1]).find?
        (fun r => r.id == (d.createLocation insA now).1.id))
        = some (d.createLocation insA now).1
    rw [find?_append_eq_of_none]
    · simp
    · rw [List.find?_eq_none]
      intro r hr
      have hid : (d.createLocation insA now).1.id = d.serialId := rfl
      rw [hid]
      simpa using hfresh r hr

/-- C5 witness: on fresh stores, creating `{name := "Home", lat 12, lng 77}`
without accuracy stores `none`, creating with accuracy 0 stores `some 0`. -/
theorem c5_witness :
    ({ name := "Home", latitude := 12, longitude := 77, accuracy := none }
      : InsertLocation).accuracy = none ∧
    ({ name := "Home", latitude := 12, longitude := 77, accuracy := some (some 0) }
      : InsertLocation).accuracy = some (some 0) ∧
    ((MemStorage.new).createLocation
      { name := "Home", latitude := 12, longitude := 77, accuracy := none } 5).1.accuracy
      = none ∧
    ((DatabaseStorage.new).createLocation
      { name := "Home", latitude := 12, longitude := 77, accuracy := some (some 0) }
      5).1.accuracy = some 0 := by
  have h := c5_accuracy_absent_distinct_from_zero MemStorage.new DatabaseStorage.new
    { name := "Home", latitude := 12, longitude := 77, accuracy := none }
    { name := "Home", latitude := 12, longitude := 77, accuracy := some (some 0) }
    5 rfl rfl (by intro r hr; simp [DatabaseStorage.new] at hr)
  exact ⟨rfl, rfl, h.1, h.2.2.2.2.2.1⟩

/-- JS whitespace skipped by `parseInt` (the common cases). -/
def isJsWhitespace (c : Char) : Bool :=
  c == ' ' || c == '\t' || c == '\n' || c == '\r'

/-- Value of a decimal digit character, `none` otherwise. -/
def decDigitVal (c : Char) : Option Nat :=
  if '0' ≤ c ∧ c ≤ '9' then some (c.toNat - '0'.toNat) else none

/-- Value of a hexadecimal digit character, `none` otherwise. -/
def hexDigitVal (c : Char) : Option Nat :=
  if '0' ≤ c ∧ c ≤ '9' then some (c.toNat - '0'.toNat)
  else if 'a' ≤ c ∧ c ≤ 'f' then some (c.toNat - 'a'.toNat + 10)
  else if 'A' ≤ c ∧ c ≤ 'F' then some (c.toNat - 'A'.toNat + 10)
  else none

/-- Accumulate the longest leading run of digits. -/
def takeDigits (dv : Char → Option Nat) (radix acc : Nat) : List Char → Nat
  | [] => acc
  | c :: cs =>
    match dv c with
    | some d => takeDigits dv radix (acc * radix + d) cs
    | none => acc

/-- Whether the first character is a digit of the selected radix. -/
def hasLeadingDigit (dv : Char → Option Nat) : List Char → Bool
  | [] => false
  | c :: _ => (dv c).isSome

/-- JS `parseInt(s)` with the radix argument omitted: skip leading
whitespace, take an optional sign, switch to hexadecimal after a `0x`/`0X`
prefix, then read the longest leading run of digits — ignoring everything
after it.  `none` is `NaN` (no digit found). -/
def parseIntJs (s : String) : Option Int :=
  let cs0 := s.toList.dropWhile isJsWhitespace
  let signed : Int × List Char :=
    match cs0 with
    | '-' :: rest => (-1, rest)
    | '+' :: rest => (1, rest)
    | _ => (1, cs0)
  let based : (Char → Option Nat) × Nat × List Char :=
    match signed.2 with
    | '0' :: 'x' :: rest => (hexDigitVal, 16, rest)
    | '0' :: 'X' :: rest => (hexDigitVal, 16, rest)
    | _ => (decDigitVal, 10, signed.2)
  if hasLeadingDigit based.1 based.2.2 then
    some (signed.1 * (takeDigits based.1 based.2.1 0 based.2.2 : Int))
  else
    none

/-- Responses of `DELETE /api/locations/:id`, by status code. -/
inductive DeleteByIdResponse
  | badRequest
  | ok
  | notFound
  deriving Repr, DecidableEq

/-- The `DELETE /api/locations/:id` handler (src/server/routes.ts) over the
store the routes import (`storage`, a `DatabaseStorage`): `parseInt` the
path parameter, 400 when `NaN`, otherwise call `deleteLocation` and answer
200 on `true`, 404 on `false`. -/
def deleteLocationRoute (s : DatabaseStorage) (idParam : String) :
    DeleteByIdResponse × DatabaseStorage :=
  match parseIntJs idParam with
  | none => (.badRequest, s)
  | some id =>
    let r := s.deleteLocation id
    if r.1 then (.ok, r.2) else (.notFound, r.2)

/-- C2 counterexample: the path segment `"2.5"` is not an integer, yet the
route does not answer 400 — `parseInt("2.5")` is `2`, the store is called
(it deletes record 2 of the sample store, observably changing the state),
and the route answers 200. -/
theorem c2_counterexample_non_integer_segment :
    parseIntJs "2.5" = some 2 ∧
    (deleteLocationRoute c1DbState "2.5").1 ≠ DeleteByIdResponse.badRequest ∧
    (deleteLocationRoute c1DbState "2.5").2 ≠ c1DbState ∧
    deleteLocationRoute c1DbState "2.5"
      = (DeleteByIdResponse.ok, { rows := [locHome], serialId := 3 }) := by
  refine ⟨by decide, ?_, ?_, ?_⟩ <;> decide

/-- C2 amended: the route answers 400 without calling the store exactly when
`parseInt` of the `:id` segment yields `NaN` (the segment has no parseable
leading integer); whenever `parseInt` yields an integer `n` — including for
non-integer segments such as `"2.5"`, which parse as their leading integer —
the store's `deleteLocation(n)` is invoked: 404 with the store unchanged
when no record `n` exists, 200 with record `n` removed when it exists. -/
theorem c2_delete_route_status_amended (s : DatabaseStorage) (idParam : String) :
    (parseIntJs idParam = none →
      deleteLocationRoute s idParam = (.badRequest, s)) ∧
    (∀ n : Int, parseIntJs idParam = some n →
      (s.getLocation n = none →
        deleteLocationRoute s idParam = (.notFound, s)) ∧
      ((s.getLocation n).isSome →
        (deleteLocationRoute s idParam).1 = .ok ∧
        ((deleteLocationRoute s idParam).2).getLocation n = none ∧
        ((deleteLocationRoute s idParam).2).rows
          = s.rows.filter (fun r => r.id != n))) := by
  constructor
  · intro h
    unfold deleteLocationRoute
    rw [h]
  · intro n hn
    constructor
    · intro hnone
      unfold deleteLocationRoute
      rw [hn]
      have hd : s.deleteLocation n = (false, s) := db_delete_nonexistent s n hnone
      simp [hd]
    · intro hsome
      have hdel : (s.deleteLocation n).1 = true := db_delete_true_of_exists s n hsome
      have hroute : deleteLocationRoute s idParam = (.ok, (s.deleteLocation n).2) := by
        unfold deleteLocationRoute
        rw [hn]
        simp [hdel]
      refine ⟨by rw [hroute], ?_, ?_⟩
      · rw [hroute]
        exact db_get_after_delete s n
      · rw [hroute]
        rfl

/-- C2 witness: on the sample store, `"abc"` (no leading integer) yields 400
with the store untouched; `"7"` names no record and yields 404 unchanged;
`"2"` names an existing record and yields 200 with record 2 removed. -/
theorem c2_witness :
    parseIntJs "abc" = none ∧
    deleteLocationRoute c1DbState "abc" = (.badRequest, c1DbState) ∧
    parseIntJs "7" = some 7 ∧
    c1DbState.getLocation 7 = none ∧
    deleteLocationRoute c1DbState "7" = (.notFound, c1DbState) ∧
    parseIntJs "2" = some 2 ∧
    (c1DbState.getLocation 2).isSome ∧
    (deleteLocationRoute c1DbState "2").1 = .ok ∧
    ((deleteLocationRoute c1DbState "2").2).getLocation 2 = none := by
  refine ⟨by decide, ?_, by decide, by decide, ?_, by decide, by decide, ?_, ?_⟩
  · exact (c2_delete_route_status_amended c1DbState "abc").1 (by decide)
  · exact (((c2_delete_route_status_amended c1DbState "7").2 7 (by decide)).1 (by decide))
  · exact (((c2_delete_route_status_amended c1DbState "2").2 2 (by decide)).2 (by decide)).1
  · exact (((c2_delete_route_status_amended c1DbState "2").2 2 (by decide)).2 (by decide)).2.1

/-- A JSON value, as delivered by Express's body parser to the POST handler. -/
inductive Json
  | null
  | bool (b : Bool)
  | num (n : Int)
  | str (s : String)
  | obj (fields : List (String × Json))

/-- Issue codes raised by the zod object schema: a required field is absent,
or a present field has the wrong runtime type. -/
inductive ZodIssueCode
  | required
  | invalidType
  deriving Repr, DecidableEq

/-- One zod issue: the path of the offending field plus the code — the
per-field detail the 400 response carries in its `errors` array. -/
structure ZodIssue where
  path : List String
  code : ZodIssueCode
  deriving Repr, DecidableEq

/-- Read a required string field, as `z.string()` checks it. -/
def readStringField (fields : List (String × Json)) (key : String) :
    Except ZodIssue String :=
  match fields.lookup key with
  | none => .error { path := [key], code := .required }
  | some (.str s) => .ok s
  | some _ => .error { path := [key], code := .invalidType }

/-- Read a required number field, as `z.number()` checks it. -/
def readNumberField (fields : List (String × Json)) (key : String) :
    Except ZodIssue Int :=
  match fields.lookup key with
  | none => .error { path := [key], code := .required }
  | some (.num n) => .ok n
  | some _ => .error { path := [key], code := .invalidType }

/-- Read an optional nullable number field (`z.number().nullable().optional()`):
absent, null, or a number. -/
def readOptNumberField (fields : List (String × Json)) (key : String) :
    Except ZodIssue (Option (Option Int)) :=
  match fields.lookup key with
  | none => .ok none
  | some .null => .ok (some none)
  | some (.num n) => .ok (some (some n))
  | some _ => .error { path := [key], code := .invalidType }

/-- The issues contributed by one field check. -/
def issuesOf {α : Type} : Except ZodIssue α → List ZodIssue
  | .error e => [e]
  | .ok _ => []

/-- `insertLocationSchema.parse(req.body)`: the object schema
`{name: string, latitude: number, longitude: number, accuracy: number
nullable optional}` built by `createInsertSchema(locations).omit({id,
timestamp})`.  Unknown keys (including `id`/`timestamp`) are stripped; a
non-object body is one root-level type issue; for an object, zod collects
the issues of every offending field in one `ZodError`. -/
def parseFields (fields : List (String × Json)) :
    Except (List ZodIssue) InsertLocation :=
  match readStringField fields "name", readNumberField fields "latitude",
        readNumberField fields "longitude", readOptNumberField fields "accuracy" with
  | .ok n, .ok la, .ok lo, .ok ac =>
    .ok { name := n, latitude := la, longitude := lo, accuracy := ac }
  | rn, rla, rlo, rac =>
    .error (issuesOf rn ++ issuesOf rla ++ issuesOf rlo ++ issuesOf rac)

def parseInsertLocation : Json → Except (List ZodIssue) InsertLocation
  | .obj fields => parseFields fields
  | _ => .error [{ path := [], code := .invalidType }]

/-- Responses of `POST /api/locations`: 201 with the created record, or 400
with the validation issues. -/
inductive PostResponse
  | created (location : Location)
  | badRequest (errors : List ZodIssue)
  deriving Repr, DecidableEq

/-- The `POST /api/locations` handler (src/server/routes.ts): parse the body
with `insertLocationSchema`; a `ZodError` is answered 400 with its issues
and the store is never reached; a parsed body is passed to
`storage.createLocation` and the created record answered 201. -/
def postLocationRoute (s : DatabaseStorage) (body : Json) (now : Nat) :
    PostResponse × DatabaseStorage :=
  match parseInsertLocation body with
  | .error errs => (.badRequest errs, s)
  | .ok data =>
    let r := s.createLocation data now
    (.created r.1, r.2)

theorem parseFields_error_nonempty (fields : List (String × Json))
    (errs : List ZodIssue) (h : parseFields fields = .error errs) : errs ≠ [] := by
  unfold parseFields at h
  rcases hn : readStringField fields "name" with e1 | n <;>
    rcases hla : readNumberField fields "latitude" with e2 | la <;>
      rcases hlo : readNumberField fields "longitude" with e3 | lo <;>
        rcases hac : readOptNumberField fields "accuracy" with e4 | ac <;>
          rw [hn, hla, hlo, hac] at h <;> simp [issuesOf] at h <;> simp [← h]

theorem parseInsertLocation_error_nonempty (body : Json) (errs : List ZodIssue)
    (h : parseInsertLocation body = .error errs) : errs ≠ [] := by
  cases body with
  | obj fields => exact parseFields_error_nonempty fields errs h
  | null => simp [parseInsertLocation] at h; simp [← h]
  | bool b => simp [parseInsertLocation] at h; simp [← h]
  | num n => simp [parseInsertLocation] at h; simp [← h]
  | str s => simp [parseInsertLocation] at h; simp [← h]

/-- C8: for every store state and request body, when the body fails the
create-request validation the route answers 400 carrying the (nonempty)
per-field issue list and the store state is untouched (create is never
invoked); when the body parses, the parsed data is forwarded to create and
the route answers 201 with exactly the created record, which carries the
store-assigned serial id and insertion timestamp and is stored. -/
theorem c8_post_validation_gate (s : DatabaseStorage) (body : Json) (now : Nat) :
    (∀ errs, parseInsertLocation body = .error errs →
      postLocationRoute s body now = (.badRequest errs, s) ∧ errs ≠ []) ∧
    (∀ data, parseInsertLocation body = .ok data →
      postLocationRoute s body now
        = (.created (s.createLocation data now).1, (s.createLocation data now).2) ∧
      (s.createLocation data now).1.id = s.serialId ∧
      (s.createLocation data now).1.timestamp = now ∧
      ((s.createLocation data now).2).rows
        = s.rows ++ [(s.createLocation data now).1]) := by
  constructor
  · intro errs h
    refine ⟨?_, parseInsertLocation_error_nonempty body errs h⟩
    unfold postLocationRoute
    rw [h]
  · intro data h
    refine ⟨?_, rfl, rfl, rfl⟩
    unfold postLocationRoute
    rw [h]

/-- C8 witness: a body whose `name` is a number and which omits both
coordinates is answered 400 with one issue per offending field, the store
untouched; a well-formed body is answered 201 with the record created at
serial id 3 of the sample store. -/
theorem c8_witness :
    parseInsertLocation (Json.obj [("name", Json.num 5)])
      = Except.error [{ path := ["name"], code := .invalidType },
                      { path := ["latitude"], code := .required },
                      { path := ["longitude"], code := .required }] ∧
    postLocationRoute c1DbState (Json.obj [("name", Json.num 5)]) 7
      = (.badRequest [{ path := ["name"], code := .invalidType },
                      { path := ["latitude"], code := .required },
                      { path := ["longitude"], code := .required }], c1DbState) ∧
    parseInsertLocation
      (Json.obj [("name", Json.str "Cafe"), ("latitude", Json.num 12),
                 ("longitude", Json.num 77)])
      = Except.ok { name := "Cafe", latitude := 12, longitude := 77,
                    accuracy := none } ∧
    (postLocationRoute c1DbState
      (Json.obj [("name", Json.str "Cafe"), ("latitude", Json.num 12),
                 ("longitude", Json.num 77)]) 7).1
      = .created { id := 3, name := "Cafe", latitude := 12, longitude := 77,
                   accuracy := none, timestamp := 7 } := by
  refine ⟨by rfl, ?_, by rfl, ?_⟩
  · exact ((c8_post_validation_gate c1DbState (Json.obj [("name", Json.num 5)]) 7).1
      _ (by rfl)).1
  · have h := ((c8_post_validation_gate c1DbState
      (Json.obj [("name", Json.str "Cafe"), ("latitude", Json.num 12),
                 ("longitude", Json.num 77)]) 7).2
      { name := "Cafe", latitude := 12, longitude := 77, accuracy := none }
      (by rfl)).1
    rw [h]
    rfl

/-- `PositionOptions`, with the module's shared `GEOLOCATION_OPTIONS` values. -/
structure PositionOptions where
  enableHighAccuracy : Bool
  timeout : Nat
  maximumAge : Nat
  deriving Repr, DecidableEq

/-- The geolocation module's single shared configuration. -/
def GEOLOCATION_OPTIONS : PositionOptions :=
  { enableHighAccuracy := true, timeout := 10000, maximumAge := 60000 }

/-- The browser environment as the module sees it: `navigator.geolocation`
is either absent (`none`) or present. -/
structure Navigator where
  geolocation : Option Unit

/-- `GeolocationPositionError.code` values delivered by the platform. -/
inductive GeoErrorCode
  | permissionDenied
  | positionUnavailable
  | timeout
  | other
  deriving Repr, DecidableEq

/-- The `switch` in `getCurrentLocation`'s error callback, translating a
platform error code into the message of the rejecting `Error`. -/
def geolocationErrorMessage : GeoErrorCode → String
  | .permissionDenied => "Location access denied by user"
  | .positionUnavailable => "Location information unavailable"
  | .timeout => "Location request timed out"
  | .other => "Unknown location error"

/-- What `getCurrentLocation()` does before any platform callback can fire:
either the returned promise is rejected at once with an `Error` message
(no platform request issued, so no wait on the configured timeout), or one
`navigator.geolocation.getCurrentPosition` request is issued with the given
options, and the promise settles only when the platform answers. -/
inductive GetCurrentOutcome
  | rejected (msg : String)
  | platformRequest (opts : PositionOptions)
  deriving Repr, DecidableEq

/-- `getCurrentLocation` (geolocation module bundled in
src/client/src/App.tsx): reject immediately when `navigator.geolocation`
is absent, otherwise issue the single platform request with
`GEOLOCATION_OPTIONS`. -/
def getCurrentLocation (nav : Navigator) : GetCurrentOutcome :=
  match nav.geolocation with
  | none => .rejected "Geolocation is not supported by this browser"
  | some _ => .platformRequest GEOLOCATION_OPTIONS

/-- What `watchPosition()` does synchronously: throw an `Error`, or register
a platform watch with the given options and return its watch id. -/
inductive WatchOutcome
  | thrown (msg : String)
  | watching (opts : PositionOptions)
  deriving Repr, DecidableEq

/-- `watchPosition`: throw synchronously when `navigator.geolocation` is
absent, otherwise register the platform watch with `GEOLOCATION_OPTIONS`. -/
def watchPosition (nav : Navigator) : WatchOutcome :=
  match nav.geolocation with
  | none => .thrown "Geolocation is not supported by this browser"
  | some _ => .watching GEOLOCATION_OPTIONS

/-- C9: when the platform geolocation capability is entirely absent,
`getCurrentLocation` rejects immediately with the "not supported" error —
it issues no platform request, so it cannot be waiting on the configured
timeout — and `watchPosition` throws the same "not supported" error
synchronously; this message differs from every message the error callback
produces for platform errors (permission denied, position unavailable,
timeout, unknown), so the condition is distinct from all of them. -/
theorem c9_unsupported_immediate_and_distinct (nav : Navigator)
    (h : nav.geolocation = none) :
    getCurrentLocation nav
      = .rejected "Geolocation is not supported by this browser" ∧
    (∀ opts, getCurrentLocation nav ≠ .platformRequest opts) ∧
    watchPosition nav = .thrown "Geolocation is not supported by this browser" ∧
    (∀ c : GeoErrorCode,
      geolocationErrorMessage c ≠ "Geolocation is not supported by this browser") := by
  refine ⟨?_, ?_, ?_, by intro c; cases c <;> decide⟩
  · unfold getCurrentLocation
    rw [h]
  · intro opts hop
    unfold getCurrentLocation at hop
    rw [h] at hop
    exact GetCurrentOutcome.noConfusion hop
  · unfold watchPosition
    rw [h]

/-- C9 witness: a browser whose `navigator` lacks `geolocation` entirely. -/
theorem c9_witness :
    ({ geolocation := none } : Navigator).geolocation = none ∧
    getCurrentLocation { geolocation := none }
      = .rejected "Geolocation is not supported by this browser" ∧
    watchPosition { geolocation := none }
      = .thrown "Geolocation is not supported by this browser" := by
  have h := c9_unsupported_immediate_and_distinct { geolocation := none } rfl
  exact ⟨rfl, h.1, h.2.2.1⟩

/-- A locally cached entry (`StoredLocation`): the create-request fields plus
a string id (`generateUniqueId()`) and an ISO timestamp string. -/
structure StoredLocation where
  name : String
  latitude : Int
  longitude : Int
  accuracy : Option (Option Int)
  id : String
  timestamp : String
  deriving Repr, DecidableEq

/-- The entry `saveLocationToLocalStorage` builds from the request plus the
fresh id and ISO timestamp. -/
def mkStoredLocation (location : InsertLocation) (freshId iso : String) :
    StoredLocation :=
  { name := location.name, latitude := location.latitude,
    longitude := location.longitude, accuracy := location.accuracy,
    id := freshId, timestamp := iso }

/-- `saveLocationToLocalStorage` on the parsed history it read back: prepend
the new entry (newest first), keep only the first 50 (`.slice(0, 50)`),
write the result back. -/
def saveLocationToLocalStorage (location : InsertLocation) (freshId iso : String)
    (history : List StoredLocation) : List StoredLocation :=
  (mkStoredLocation location freshId iso :: history).take 50

/-- A sequence of saves: each call reads the history the previous one wrote. -/
def runSaves (history : List StoredLocation) :
    List (InsertLocation × String × String) → List StoredLocation
  | [] => history
  | (l, i, t) :: rest =>
    runSaves (saveLocationToLocalStorage l i t history) rest

theorem runSaves_length_le (calls : List (InsertLocation × String × String)) :
    ∀ history : List StoredLocation, calls ≠ [] →
      (runSaves history calls).length ≤ 50 := by
  induction calls with
  | nil => intro _ h; exact absurd rfl h
  | cons c rest ih =>
    intro history _
    rcases c with ⟨l, i, t⟩
    cases rest with
    | nil =>
      show (saveLocationToLocalStorage l i t history).length ≤ 50
      unfold saveLocationToLocalStorage
      simp
    | cons c2 rest2 =>
      exact ih _ (by simp)

/-- C10: each `saveLocationToLocalStorage` call prepends the new entry (it is
the head of the written list) and truncates to the first 50 elements before
writing, silently dropping the oldest entries beyond the limit; hence after
every nonempty sequence of save calls, from any starting history, the
cached history holds at most 50 entries. -/
theorem c10_local_history_capped_at_50 (location : InsertLocation)
    (freshId iso : String) (history : List StoredLocation)
    (calls : List (InsertLocation × String × String)) (hc : calls ≠ []) :
    saveLocationToLocalStorage location freshId iso history
      = (mkStoredLocation location freshId iso :: history).take 50 ∧
    (saveLocationToLocalStorage location freshId iso history).head?
      = some (mkStoredLocation location freshId iso) ∧
    (saveLocationToLocalStorage location freshId iso history).length ≤ 50 ∧
    (runSaves history calls).length ≤ 50 := by
  refine ⟨rfl, by simp [saveLocationToLocalStorage], ?_,
          runSaves_length_le calls history hc⟩
  unfold saveLocationToLocalStorage
  simp

/-- C10 witness: one save of a concrete location onto a history of fifty
identical entries keeps the list at fifty, with the new entry in front. -/
theorem c10_witness :
    (saveLocationToLocalStorage
        { name := "Home", latitude := 12, longitude := 77, accuracy := none }
        "id-1" "t0" (List.replicate 50 (mkStoredLocation
          { name := "Old", latitude := 0, longitude := 0, accuracy := none }
          "id-0" "t"))).length ≤ 50 ∧
    (runSaves (List.replicate 50 (mkStoredLocation
        { name := "Old", latitude := 0, longitude := 0, accuracy := none }
        "id-0" "t"))
      [({ name := "Home", latitude := 12, longitude := 77, accuracy := none },
        "id-1", "t0")]).length ≤ 50 := by
  have h := c10_local_history_capped_at_50
    { name := "Home", latitude := 12, longitude := 77, accuracy := none }
    "id-1" "t0"
    (List.replicate 50 (mkStoredLocation
      { name := "Old", latitude := 0, longitude := 0, accuracy := none }
      "id-0" "t"))
    [({ name := "Home", latitude := 12, longitude := 77, accuracy := none },
      "id-1", "t0")]
    (by simp)
  exact ⟨h.2.2.1, h.2.2.2⟩

end LocTracker
